import Mathlib

set_option maxHeartbeats 1000000

/-!
Verification development for the `getdeadpeople` bulk-lookup scripts
(`v4.py`, the converged iteration, with `v3.py` consulted where noted).

The Python source is shallowly embedded as follows:

* `ProxyManager` state (`self.proxies`, `self.proxy_usage`, `self.proxy_queue`,
  `self.requests_per_hour`) becomes the `PoolState` structure; the Python dict
  `proxy_usage` is an association list with one entry per proxy (the dict
  comprehension in `__init__` produces one entry per distinct address).
* All pool methods run inside the single-worker executor `self.lock`, i.e.
  they are serialized; each method is therefore a pure state transformer.
  A `KeyError` (dict subscript / `del` on a missing key) is modelled by an
  `Option` result being `none`.
* `time.time()` values are `Nat` timestamps supplied explicitly.
* The network is an oracle: `query_api`'s `requests.post` outcome for the
  i-th issued request is supplied by a function `Nat → HttpOutcome`.
-/

/-- Per-endpoint usage data: the request count in the current window and the
window-start timestamp, as stored in `ProxyManager.proxy_usage[proxy]`. -/
structure ProxyData where
  count : Nat
  last_reset : Nat
deriving DecidableEq

/-- The mutable state of `ProxyManager`: the list of live proxies, the usage
table, the rotation queue and the configured per-window quota. -/
structure PoolState where
  proxies : List String
  usage : List (String × ProxyData)
  queue : List String
  requests_per_hour : Nat
deriving DecidableEq

/-- Dict lookup `proxy_usage[p]`, `none` when the key is absent. -/
def lookupData (u : List (String × ProxyData)) (p : String) : Option ProxyData :=
  (u.find? (fun e => e.1 == p)).map (fun e => e.2)

/-- `ProxyManager.__init__(proxies, requests_per_hour)` at time `t0`:
every proxy starts with count 0 and window start `t0`; the queue is the
proxy list. (The dict comprehension gives one entry per distinct address;
the embedding assumes the supplied list is duplicate-free, as theorems
using it require.) -/
def initPool (proxies : List String) (rph : Nat) (t0 : Nat) : PoolState :=
  ⟨proxies, proxies.map (fun p => (p, ⟨0, t0⟩)), proxies, rph⟩

/-- The window-reset sweep at the top of `get_proxy`: any entry whose window
started more than 3600 seconds ago is reset to count 0 with a fresh window. -/
def resetCounters (now : Nat) (u : List (String × ProxyData)) :
    List (String × ProxyData) :=
  u.map (fun e => if now - e.2.last_reset > 3600 then (e.1, ⟨0, now⟩) else e)

/-- The rotation scan in `get_proxy`: up to `fuel` times (the code uses
`range(len(self.proxy_queue))`), pop the front proxy; if its count is under
quota, push it to the back and grant it, otherwise push it to the back and
continue. A queue entry missing from the usage dict is a `KeyError` (`none`). -/
def scanQueue (u : List (String × ProxyData)) (quota : Nat) :
    Nat → List String → Option (Option String × List String)
  | 0, q => some (none, q)
  | _ + 1, [] => some (none, [])
  | fuel + 1, p :: rest =>
    match lookupData u p with
    | none => none
    | some d =>
      if d.count < quota then some (some p, rest ++ [p])
      else scanQueue u quota fuel (rest ++ [p])

/-- `ProxyManager.get_proxy` (the body `_get_proxy`, which runs serialized):
returns `none` on a `KeyError`, otherwise the granted proxy (or `none` for
"no proxy available") together with the updated pool state. -/
def get_proxy (now : Nat) (st : PoolState) : Option (Option String × PoolState) :=
  if st.proxies = [] then some (none, st)
  else
    let u := resetCounters now st.usage
    match scanQueue u st.requests_per_hour st.queue.length st.queue with
    | none => none
    | some (res, q') =>
      some (res, { st with usage := u, queue := q' })

/-- The usage-table update of `increment_usage`: bump the count of `p`'s
entry if present, leave the table unchanged otherwise. -/
def incUsageList (u : List (String × ProxyData)) (p : String) :
    List (String × ProxyData) :=
  u.map (fun e => if e.1 == p then (e.1, ⟨e.2.count + 1, e.2.last_reset⟩) else e)

/-- `ProxyManager.increment_usage`: `if proxy in self.proxy_usage:
self.proxy_usage[proxy]["count"] += 1` — never raises. -/
def increment_usage (st : PoolState) (p : String) : PoolState :=
  { st with usage := incUsageList st.usage p }

/-- `ProxyManager.mark_proxy_failed`: if the proxy is in `self.proxies`,
remove its first occurrence, delete its usage entry (`del` raises `KeyError`
— modelled as `none` — when the key is absent) and rebuild the queue from
the remaining proxies; otherwise do nothing. -/
def mark_proxy_failed (st : PoolState) (p : String) : Option PoolState :=
  if p ∈ st.proxies then
    match lookupData st.usage p with
    | none => none
    | some _ =>
      let ps := st.proxies.erase p
      some ⟨ps, st.usage.eraseP (fun e => e.1 == p), ps, st.requests_per_hour⟩
  else some st

/-! ### Basic lookup lemmas -/

theorem lookupData_nil (p : String) : lookupData [] p = none := rfl

theorem lookupData_cons (e : String × ProxyData) (u : List (String × ProxyData))
    (p : String) :
    lookupData (e :: u) p = if e.1 = p then some e.2 else lookupData u p := by
  by_cases h : e.1 = p
  · rw [if_pos h]
    unfold lookupData
    rw [List.find?_cons_of_pos _ (by simp [h])]
    rfl
  · rw [if_neg h]
    unfold lookupData
    rw [List.find?_cons_of_neg _ (by simp [h])]

theorem lookupData_eq_none_iff (u : List (String × ProxyData)) (x : String) :
    lookupData u x = none ↔ ∀ e ∈ u, e.1 ≠ x := by
  induction u with
  | nil => simp [lookupData_nil]
  | cons e tl ih =>
    rw [lookupData_cons]
    by_cases h : e.1 = x
    · simp [h]
    · simp only [if_neg h, ih, List.mem_cons]
      constructor
      · rintro htl e2 (rfl | hmem)
        · exact h
        · exact htl e2 hmem
      · intro hall e2 hmem
        exact hall e2 (Or.inr hmem)

theorem lookupData_resetCounters (now : Nat) (u : List (String × ProxyData))
    (p : String) :
    lookupData (resetCounters now u) p =
      (lookupData u p).map
        (fun d => if now - d.last_reset > 3600 then ⟨0, now⟩ else d) := by
  induction u with
  | nil => rfl
  | cons e tl ih =>
    by_cases hc : now - e.2.last_reset > 3600 <;>
      by_cases hk : e.1 = p <;>
        simp [resetCounters, lookupData_cons, hc, hk] <;>
          simpa [resetCounters] using ih

theorem lookupData_incUsageList (u : List (String × ProxyData)) (p x : String) :
    lookupData (incUsageList u p) x =
      if x = p then (lookupData u x).map (fun d => ⟨d.count + 1, d.last_reset⟩)
      else lookupData u x := by
  induction u with
  | nil => simp [incUsageList, lookupData_nil]
  | cons e tl ih =>
    unfold incUsageList at ih ⊢
    rw [List.map_cons]
    by_cases hep : e.1 = p
    · rw [if_pos (by simp [hep])]
      by_cases hex : e.1 = x
      · subst hex; subst hep
        simp [lookupData_cons]
      · simp only [lookupData_cons, if_neg hex]
        exact ih
    · rw [if_neg (by simp [hep])]
      by_cases hex : e.1 = x
      · subst hex
        simp [lookupData_cons, hep]
      · simp only [lookupData_cons, if_neg hex]
        exact ih

theorem lookupData_eraseP_of_none (u : List (String × ProxyData))
    (f : String × ProxyData → Bool) (x : String) (h : lookupData u x = none) :
    lookupData (u.eraseP f) x = none := by
  rw [lookupData_eq_none_iff] at h ⊢
  intro e hmem
  exact h e (List.mem_of_mem_eraseP hmem)

theorem lookupData_eraseP_self (u : List (String × ProxyData)) (p : String)
    (hnd : (u.map Prod.fst).Nodup) :
    lookupData (u.eraseP (fun e => e.1 == p)) p = none := by
  induction u with
  | nil => rfl
  | cons e tl ih =>
    simp only [List.map_cons, List.nodup_cons] at hnd
    by_cases hep : e.1 = p
    · rw [List.eraseP_cons_of_pos (by simp [hep])]
      rw [lookupData_eq_none_iff]
      intro e2 hmem hcontra
      exact hnd.1 (List.mem_map.mpr ⟨e2, hmem, hcontra.trans hep.symm⟩)
    · rw [List.eraseP_cons_of_neg (by simp [hep]), lookupData_cons, if_neg hep]
      exact ih hnd.2

/-! ### C10: no-op behaviour on absent keys -/

/-- C10: calling `increment_usage` with a proxy that has no entry in the
usage table is a silent no-op (no error, no new entry, state unchanged),
and calling `mark_proxy_failed` on a proxy that is no longer in the pool's
proxy list leaves the pool state unchanged (and raises nothing). -/
theorem increment_and_mark_noop (st : PoolState) (p : String) :
    (lookupData st.usage p = none → increment_usage st p = st) ∧
    (p ∉ st.proxies → mark_proxy_failed st p = some st) := by
  constructor
  · intro h
    have hkeys : ∀ e ∈ st.usage, (e.1 == p) = false := by
      intro e hmem
      have hne := (lookupData_eq_none_iff st.usage p).mp h e hmem
      simpa using hne
    have : incUsageList st.usage p = st.usage := by
      unfold incUsageList
      calc st.usage.map
            (fun e => if e.1 == p then (e.1, ⟨e.2.count + 1, e.2.last_reset⟩) else e)
          = st.usage.map id := by
            apply List.map_congr_left
            intro e hmem
            simp [hkeys e hmem]
        _ = st.usage := List.map_id _
    simp [increment_usage, this]
  · intro h
    simp [mark_proxy_failed, h]

/-- Witness for C10 at a concrete pool: `"http://a"` has no usage entry in
and is absent from a pool holding only `"http://b"`. -/
theorem increment_and_mark_noop_witness :
    (lookupData (initPool ["http://b"] 150 0).usage "http://a" = none ∧
      increment_usage (initPool ["http://b"] 150 0) "http://a" =
        initPool ["http://b"] 150 0) ∧
    ("http://a" ∉ (initPool ["http://b"] 150 0).proxies ∧
      mark_proxy_failed (initPool ["http://b"] 150 0) "http://a" =
        some (initPool ["http://b"] 150 0)) :=
  ⟨⟨by decide, (increment_and_mark_noop _ _).1 (by decide)⟩,
    ⟨by decide, (increment_and_mark_noop _ _).2 (by decide)⟩⟩

/-! ### C4: an evicted endpoint is never granted again -/

/-- One serialized `ProxyManager` operation, as invoked by the workers:
`get_proxy` at some wall-clock time, `increment_usage`, or
`mark_proxy_failed`. -/
inductive PoolOp where
  | get (now : Nat)
  | inc (p : String)
  | fail (p : String)
deriving DecidableEq

/-- One pool operation applied to the state; returns the new state and, for
`get_proxy`, the granted proxy.  `none` models a `KeyError` crash. -/
def poolStep (st : PoolState) : PoolOp → Option (PoolState × Option String)
  | .get now => (get_proxy now st).map (fun r => (r.2, r.1))
  | .inc p => some (increment_usage st p, none)
  | .fail p => (mark_proxy_failed st p).map (fun st' => (st', none))

/-- Run a sequence of pool operations, collecting every proxy granted by a
`get_proxy` call along the way. -/
def runPool (st : PoolState) : List PoolOp → Option (PoolState × List String)
  | [] => some (st, [])
  | op :: ops =>
    match poolStep st op with
    | none => none
    | some (st', g) =>
      match runPool st' ops with
      | none => none
      | some (stF, gs) =>
        some (stF, match g with | some p => p :: gs | none => gs)

/-- The grants collected by a (possibly crashed) run; a crashed run grants
nothing beyond what an earlier prefix already granted, and is collected as
the empty list here because `runPool` returns `none` wholesale. -/
def grantsOf : Option (PoolState × List String) → List String
  | some (_, gs) => gs
  | none => []

/-- A proxy that is absent from all three components of the pool state. -/
def EvictedFrom (p : String) (st : PoolState) : Prop :=
  p ∉ st.proxies ∧ p ∉ st.queue ∧ lookupData st.usage p = none

theorem scanQueue_mem (u : List (String × ProxyData)) (quota : Nat) :
    ∀ fuel Q res Q', scanQueue u quota fuel Q = some (res, Q') →
      (∀ x ∈ Q', x ∈ Q) ∧ (∀ x, res = some x → x ∈ Q) := by
  intro fuel
  induction fuel with
  | zero =>
    intro Q res Q' h
    simp only [scanQueue] at h
    obtain ⟨h1, h2⟩ := Prod.mk.injEq _ _ _ _ ▸ (Option.some.injEq _ _ ▸ h)
    constructor
    · intro x hx; exact h2 ▸ hx
    · intro x hx; rw [← h1] at hx; exact absurd hx (by simp)
  | succ fuel ih =>
    intro Q res Q' h
    match Q with
    | [] =>
      simp only [scanQueue] at h
      obtain ⟨h1, h2⟩ := Prod.mk.injEq _ _ _ _ ▸ (Option.some.injEq _ _ ▸ h)
      constructor
      · intro x hx; rw [← h2] at hx; exact absurd hx (by simp)
      · intro x hx; rw [← h1] at hx; exact absurd hx (by simp)
    | p :: rest =>
      simp only [scanQueue] at h
      match hl : lookupData u p with
      | none => rw [hl] at h; exact absurd h (by simp)
      | some d =>
        rw [hl] at h
        simp only at h
        by_cases hq : d.count < quota
        · rw [if_pos hq] at h
          obtain ⟨h1, h2⟩ := Prod.mk.injEq _ _ _ _ ▸ (Option.some.injEq _ _ ▸ h)
          constructor
          · intro x hx
            rw [← h2] at hx
            rcases List.mem_append.mp hx with h3 | h3
            · exact List.mem_cons_of_mem _ h3
            · simp at h3; subst h3; exact List.mem_cons_self _ _
          · intro x hx
            rw [← h1] at hx
            obtain rfl : p = x := by simpa using hx
            exact List.mem_cons_self _ _
        · rw [if_neg hq] at h
          obtain ⟨hmem, hres⟩ := ih (rest ++ [p]) res Q' h
          constructor
          · intro x hx
            rcases List.mem_append.mp (hmem x hx) with h3 | h3
            · exact List.mem_cons_of_mem _ h3
            · simp at h3; subst h3; exact List.mem_cons_self _ _
          · intro x hx
            rcases List.mem_append.mp (hres x hx) with h3 | h3
            · exact List.mem_cons_of_mem _ h3
            · simp at h3; subst h3; exact List.mem_cons_self _ _

theorem poolStep_preserves_evicted (p : String) (st : PoolState) (op : PoolOp)
    (st' : PoolState) (g : Option String) (hev : EvictedFrom p st)
    (hstep : poolStep st op = some (st', g)) :
    EvictedFrom p st' ∧ g ≠ some p := by
  obtain ⟨hpx, hq, hu⟩ := hev
  match op with
  | .get now =>
    simp only [poolStep, get_proxy] at hstep
    by_cases hmt : st.proxies = []
    · rw [if_pos hmt] at hstep
      simp only [Option.map_some'] at hstep
      obtain ⟨h1, h2⟩ := Prod.mk.injEq _ _ _ _ ▸ (Option.some.injEq _ _ ▸ hstep)
      refine ⟨?_, ?_⟩
      · rw [← h1]; exact ⟨hpx, hq, hu⟩
      · rw [← h2]; simp
    · rw [if_neg hmt] at hstep
      match hscan : scanQueue (resetCounters now st.usage) st.requests_per_hour
          st.queue.length st.queue with
      | none => rw [hscan] at hstep; exact absurd hstep (by simp)
      | some (res, q') =>
        rw [hscan] at hstep
        simp only [Option.map_some'] at hstep
        obtain ⟨h1, h2⟩ := Prod.mk.injEq _ _ _ _ ▸ (Option.some.injEq _ _ ▸ hstep)
        obtain ⟨hmem, hres⟩ := scanQueue_mem _ _ _ _ _ _ hscan
        refine ⟨?_, ?_⟩
        · rw [← h1]
          refine ⟨hpx, ?_, ?_⟩
          · intro hcontra
            exact hq (hmem p hcontra)
          · rw [lookupData_resetCounters, hu]; rfl
        · rw [← h2]
          intro hcontra
          exact hq (hres p hcontra)
  | .inc x =>
    simp only [poolStep] at hstep
    obtain ⟨h1, h2⟩ := Prod.mk.injEq _ _ _ _ ▸ (Option.some.injEq _ _ ▸ hstep)
    refine ⟨?_, by rw [← h2]; simp⟩
    rw [← h1]
    refine ⟨hpx, hq, ?_⟩
    simp only [increment_usage]
    rw [lookupData_incUsageList]
    simp [hu]
  | .fail x =>
    simp only [poolStep, mark_proxy_failed] at hstep
    by_cases hx : x ∈ st.proxies
    · rw [if_pos hx] at hstep
      match hl : lookupData st.usage x with
      | none => rw [hl] at hstep; exact absurd hstep (by simp)
      | some d =>
        rw [hl] at hstep
        simp only [Option.map_some'] at hstep
        obtain ⟨h1, h2⟩ := Prod.mk.injEq _ _ _ _ ▸ (Option.some.injEq _ _ ▸ hstep)
        refine ⟨?_, by rw [← h2]; simp⟩
        rw [← h1]
        refine ⟨?_, ?_, ?_⟩
        · intro hc; exact hpx (List.erase_subset x st.proxies hc)
        · intro hc; exact hpx (List.erase_subset x st.proxies hc)
        · exact lookupData_eraseP_of_none _ _ _ hu
    · rw [if_neg hx] at hstep
      simp only [Option.map_some'] at hstep
      obtain ⟨h1, h2⟩ := Prod.mk.injEq _ _ _ _ ▸ (Option.some.injEq _ _ ▸ hstep)
      refine ⟨by rw [← h1]; exact ⟨hpx, hq, hu⟩, by rw [← h2]; simp⟩

theorem runPool_avoids_evicted (p : String) :
    ∀ ops st, EvictedFrom p st → p ∉ grantsOf (runPool st ops) := by
  intro ops
  induction ops with
  | nil => intro st _ h; simp [runPool, grantsOf] at h
  | cons op rest ih =>
    intro st hev
    match hstep : poolStep st op with
    | none => simp [runPool, hstep, grantsOf]
    | some (st', g) =>
      obtain ⟨hev', hg⟩ := poolStep_preserves_evicted p st op st' g hev hstep
      match hrun : runPool st' rest with
      | none => simp [runPool, hstep, hrun, grantsOf]
      | some (stF, gs) =>
        have hnotin : p ∉ gs := by
          have := ih st' hev'
          rw [hrun] at this
          exact this
        simp only [runPool, hstep, hrun]
        match g with
        | none => simpa [grantsOf] using hnotin
        | some x =>
          simp only [grantsOf, List.mem_cons, not_or]
          exact ⟨fun h1 => hg (by rw [h1]), hnotin⟩

/-- C4: once `mark_proxy_failed` has removed an endpoint from the pool, no
later sequence of pool operations (`get_proxy`, `increment_usage`,
`mark_proxy_failed`) ever grants that endpoint again. -/
theorem evicted_never_granted (st st1 : PoolState) (p : String)
    (ops : List PoolOp)
    (hnd : st.proxies.Nodup) (hknd : (st.usage.map Prod.fst).Nodup)
    (hmem : p ∈ st.proxies)
    (hmark : mark_proxy_failed st p = some st1) :
    p ∉ grantsOf (runPool st1 ops) := by
  have hev : EvictedFrom p st1 := by
    simp only [mark_proxy_failed, if_pos hmem] at hmark
    match hl : lookupData st.usage p with
    | none => rw [hl] at hmark; exact absurd hmark (by simp)
    | some d =>
      rw [hl] at hmark
      simp only [Option.some.injEq] at hmark
      rw [← hmark]
      refine ⟨hnd.not_mem_erase, hnd.not_mem_erase, ?_⟩
      exact lookupData_eraseP_self _ _ hknd
  exact runPool_avoids_evicted p ops st1 hev

/-- Witness for C4: evict `"http://a"` from a two-proxy pool, then run a
short operation sequence; the grant log avoids the evicted endpoint. -/
theorem evicted_never_granted_witness :
    (initPool ["http://a", "http://b"] 150 0).proxies.Nodup ∧
    "http://a" ∈ (initPool ["http://a", "http://b"] 150 0).proxies ∧
    mark_proxy_failed (initPool ["http://a", "http://b"] 150 0) "http://a" =
      some ⟨["http://b"], [("http://b", ⟨0, 0⟩)], ["http://b"], 150⟩ ∧
    "http://a" ∉ grantsOf (runPool
      ⟨["http://b"], [("http://b", ⟨0, 0⟩)], ["http://b"], 150⟩
      [.get 0, .inc "http://b", .get 0]) :=
  ⟨by decide, by decide, by decide,
    evicted_never_granted (initPool ["http://a", "http://b"] 150 0)
      ⟨["http://b"], [("http://b", ⟨0, 0⟩)], ["http://b"], 150⟩ "http://a"
      [.get 0, .inc "http://b", .get 0]
      (by decide) (by decide) (by decide) (by decide)⟩

/-! ### C1: per-window quota under concurrent acquire / usage recording -/

/-- The per-hour quota constant `REQUESTS_PER_HOUR` of `v4.py`. -/
def REQUESTS_PER_HOUR : Nat := 150

/-- An event of one worker running `query_api`'s proxy protocol: `acquire`
is the worker's `get_proxy` call (at some wall-clock time) and `record` is
the same worker's later `increment_usage` call for the proxy it was
granted.  Distinct workers may interleave these arbitrarily, because the
source increments usage only after the request completes, outside the
serialized acquire. -/
inductive WEvent where
  | acquire (w : Nat) (now : Nat)
  | record (w : Nat)
deriving DecidableEq

/-- Shared pool state plus each worker's currently-held grant. -/
structure ConcState where
  pool : PoolState
  held : List (Option String)
deriving DecidableEq

/-- One interleaving step.  `none` marks an invalid interleaving (a worker
recording without holding a grant) or a `KeyError` crash. -/
def cstep (cs : ConcState) : WEvent → Option ConcState
  | .acquire w now =>
    match get_proxy now cs.pool with
    | none => none
    | some (res, pool') => some ⟨pool', cs.held.set w res⟩
  | .record w =>
    match cs.held.get? w with
    | some (some p) => some ⟨increment_usage cs.pool p, cs.held.set w none⟩
    | _ => none

/-- Run an interleaving of worker events. -/
def crun (cs : ConcState) : List WEvent → Option ConcState
  | [] => some cs
  | e :: es =>
    match cstep cs e with
    | none => none
    | some cs' => crun cs' es

/-- The recorded usage count of a proxy (0 when absent). -/
def countD (st : PoolState) (p : String) : Nat :=
  ((lookupData st.usage p).map (fun d => d.count)).getD 0

/-- `n` repetitions of worker 0 acquiring and immediately recording. -/
def acquireRecordPairs : Nat → List WEvent
  | 0 => []
  | n + 1 => WEvent.acquire 0 0 :: WEvent.record 0 :: acquireRecordPairs n

/-- The racing interleaving: worker 0 performs 149 complete
acquire-then-record rounds, then workers 0 and 1 both acquire (both see
count 149 < 150) and both record. -/
def racingTrace : List WEvent :=
  acquireRecordPairs 149 ++
    [WEvent.acquire 0 0, WEvent.acquire 1 0, WEvent.record 0, WEvent.record 1]

/-- Counterexample to C1 as stated: with the configured quota
`REQUESTS_PER_HOUR = 150`, a single-proxy pool and two workers, the
interleaving `racingTrace` of `get_proxy` and `increment_usage` calls is
accepted by the pool and drives the endpoint's recorded usage count to
151 > 150: the check-then-increment race. -/
theorem quota_race_counterexample :
    (crun ⟨initPool ["http://a"] REQUESTS_PER_HOUR 0, [none, none]⟩
        racingTrace).map (fun cs => countD cs.pool "http://a") = some 151 ∧
    ¬ (151 ≤ REQUESTS_PER_HOUR) := by
  constructor
  · decide
  · decide

/-- The repaired discipline from the spec's design notes: a usage slot is
reserved atomically at grant time, i.e. each `get_proxy` grant is followed
immediately by its `increment_usage`, with no other pool operation in
between.  (`none` propagates a `KeyError` crash.) -/
def acquire_and_record (now : Nat) (st : PoolState) : Option PoolState :=
  match get_proxy now st with
  | none => none
  | some (none, st') => some st'
  | some (some p, st') => some (increment_usage st' p)

/-- A sequence of atomic acquire-and-record rounds, one per timestamp. -/
def atomicRun (st : PoolState) : List Nat → Option PoolState
  | [] => some st
  | now :: rest =>
    match acquire_and_record now st with
    | none => none
    | some st' => atomicRun st' rest

/-- The quota invariant: every usage entry is at or below the pool's
configured per-window quota. -/
def UsageBounded (st : PoolState) : Prop :=
  ∀ e ∈ st.usage, e.2.count ≤ st.requests_per_hour

theorem scanQueue_grant (u : List (String × ProxyData)) (quota : Nat) :
    ∀ fuel Q p Q', scanQueue u quota fuel Q = some (some p, Q') →
      ∃ d, lookupData u p = some d ∧ d.count < quota := by
  intro fuel
  induction fuel with
  | zero =>
    intro Q p Q' h
    simp only [scanQueue] at h
    exact absurd (congrArg Prod.fst (Option.some.injEq _ _ ▸ h)) (by simp)
  | succ fuel ih =>
    intro Q p Q' h
    match Q with
    | [] =>
      simp only [scanQueue] at h
      exact absurd (congrArg Prod.fst (Option.some.injEq _ _ ▸ h)) (by simp)
    | x :: rest =>
      simp only [scanQueue] at h
      match hl : lookupData u x with
      | none => rw [hl] at h; exact absurd h (by simp)
      | some d =>
        rw [hl] at h
        simp only at h
        by_cases hq : d.count < quota
        · rw [if_pos hq] at h
          obtain ⟨h1, _⟩ := Prod.mk.injEq _ _ _ _ ▸ (Option.some.injEq _ _ ▸ h)
          obtain rfl : x = p := by simpa using h1
          exact ⟨d, hl, hq⟩
        · rw [if_neg hq] at h
          exact ih (rest ++ [x]) p Q' h

theorem usageBounded_resetCounters (st : PoolState) (now : Nat)
    (h : UsageBounded st) :
    UsageBounded { st with usage := resetCounters now st.usage } := by
  intro e hmem
  simp only [resetCounters, List.mem_map] at hmem
  obtain ⟨e0, hmem0, heq⟩ := hmem
  by_cases hc : now - e0.2.last_reset > 3600
  · rw [if_pos hc] at heq
    rw [← heq]
    exact Nat.zero_le _
  · rw [if_neg hc] at heq
    rw [← heq]
    exact h e0 hmem0

theorem lookupData_mem (u : List (String × ProxyData)) (p : String) (d : ProxyData)
    (h : lookupData u p = some d) : (p, d) ∈ u := by
  induction u with
  | nil => simp [lookupData_nil] at h
  | cons e tl ih =>
    rw [lookupData_cons] at h
    by_cases hk : e.1 = p
    · rw [if_pos hk] at h
      obtain rfl : e.2 = d := by simpa using h
      rw [← hk]
      exact List.mem_cons_self _ _
    · rw [if_neg hk] at h
      exact List.mem_cons_of_mem _ (ih h)

theorem keys_resetCounters (now : Nat) (u : List (String × ProxyData)) :
    (resetCounters now u).map Prod.fst = u.map Prod.fst := by
  unfold resetCounters
  rw [List.map_map]
  apply List.map_congr_left
  intro e _
  by_cases hc : now - e.2.last_reset > 3600 <;> simp [hc]

theorem keys_incUsageList (u : List (String × ProxyData)) (p : String) :
    (incUsageList u p).map Prod.fst = u.map Prod.fst := by
  unfold incUsageList
  rw [List.map_map]
  apply List.map_congr_left
  intro e _
  by_cases hc : e.1 = p <;> simp [hc]

theorem lookupData_of_mem_nodup (u : List (String × ProxyData)) (p : String)
    (d : ProxyData) (hnd : (u.map Prod.fst).Nodup) (hmem : (p, d) ∈ u) :
    lookupData u p = some d := by
  induction u with
  | nil => simp at hmem
  | cons e tl ih =>
    simp only [List.map_cons, List.nodup_cons] at hnd
    rw [lookupData_cons]
    rcases List.mem_cons.mp hmem with h1 | h2
    · rw [← h1]
      simp
    · by_cases hk : e.1 = p
      · exfalso
        refine hnd.1 (List.mem_map.mpr ⟨(p, d), h2, ?_⟩)
        simp [hk]
      · rw [if_neg hk]
        exact ih hnd.2 h2

theorem acquire_and_record_bounded (now : Nat) (st st' : PoolState)
    (hnd : (st.usage.map Prod.fst).Nodup)
    (h : UsageBounded st) (hstep : acquire_and_record now st = some st') :
    (UsageBounded st' ∧ st'.requests_per_hour = st.requests_per_hour) ∧
      (st'.usage.map Prod.fst).Nodup := by
  unfold acquire_and_record at hstep
  unfold get_proxy at hstep
  by_cases hmt : st.proxies = []
  · rw [if_pos hmt] at hstep
    simp only [Option.some.injEq] at hstep
    rw [← hstep]
    exact ⟨⟨h, rfl⟩, hnd⟩
  · rw [if_neg hmt] at hstep
    simp only at hstep
    match hscan : scanQueue (resetCounters now st.usage) st.requests_per_hour
        st.queue.length st.queue with
    | none => rw [hscan] at hstep; exact absurd hstep (by simp)
    | some (res, q') =>
      rw [hscan] at hstep
      have hndr : ((resetCounters now st.usage).map Prod.fst).Nodup := by
        rw [keys_resetCounters]; exact hnd
      have hreset : ∀ e ∈ resetCounters now st.usage,
          e.2.count ≤ st.requests_per_hour := by
        intro e hmem
        exact usageBounded_resetCounters st now h e hmem
      match res with
      | none =>
        simp only [Option.some.injEq] at hstep
        rw [← hstep]
        exact ⟨⟨hreset, rfl⟩, hndr⟩
      | some p =>
        simp only [Option.some.injEq] at hstep
        obtain ⟨d, hld, hdq⟩ := scanQueue_grant _ _ _ _ _ _ hscan
        rw [← hstep]
        refine ⟨⟨?_, rfl⟩, ?_⟩
        · intro e hmem
          simp only [increment_usage, incUsageList, List.mem_map] at hmem
          obtain ⟨e0, hmem0, heq⟩ := hmem
          by_cases hk : e0.1 = p
          · rw [if_pos (by simp [hk])] at heq
            have he0 : e0.2 = d := by
              have hpe : (p, e0.2) = e0 := by rw [← hk]
              have h1 : lookupData (resetCounters now st.usage) p = some e0.2 :=
                lookupData_of_mem_nodup _ _ _ hndr (hpe ▸ hmem0)
              rw [hld] at h1
              exact (Option.some.injEq _ _).mp h1.symm
            rw [← heq]
            simp only
            rw [he0]
            exact Nat.succ_le_of_lt hdq
          · rw [if_neg (by simp [hk])] at heq
            rw [← heq]
            exact hreset e0 hmem0
        · simp only [increment_usage]
          rw [keys_incUsageList]
          exact hndr

theorem atomicRun_bounded :
    ∀ nows st st', (st.usage.map Prod.fst).Nodup → UsageBounded st →
      atomicRun st nows = some st' →
      UsageBounded st' := by
  intro nows
  induction nows with
  | nil =>
    intro st st' _ h hrun
    simp only [atomicRun, Option.some.injEq] at hrun
    rw [← hrun]
    exact h
  | cons now rest ih =>
    intro st st' hnd h hrun
    simp only [atomicRun] at hrun
    match hstep : acquire_and_record now st with
    | none => rw [hstep] at hrun; exact absurd hrun (by simp)
    | some st1 =>
      rw [hstep] at hrun
      obtain ⟨⟨h1, _⟩, hnd1⟩ := acquire_and_record_bounded now st st1 hnd h hstep
      exact ih st1 st' hnd1 h1 hrun

/-- C1 (amended): the claim fails for the source's split acquire / record
protocol (see `quota_race_counterexample`), but holds under the repaired
discipline in which every grant's usage is recorded atomically with the
acquire: starting from a freshly initialized pool over distinct proxies
with quota `REQUESTS_PER_HOUR`, after any sequence of atomic
acquire-and-record rounds every endpoint's recorded usage count is at most
`REQUESTS_PER_HOUR`. -/
theorem quota_bounded_atomic_discipline (proxies : List String) (t0 : Nat)
    (nows : List Nat) (st' : PoolState)
    (hnd : proxies.Nodup)
    (hrun : atomicRun (initPool proxies REQUESTS_PER_HOUR t0) nows = some st') :
    UsageBounded st' := by
  apply atomicRun_bounded nows _ st' _ _ hrun
  · simp only [initPool, List.map_map]
    have hco : (Prod.fst ∘ fun p : String => (p, (⟨0, t0⟩ : ProxyData))) = id := rfl
    rw [hco, List.map_id]
    exact hnd
  · intro e hmem
    simp only [initPool, List.mem_map] at hmem
    obtain ⟨p, _, heq⟩ := hmem
    rw [← heq]
    exact Nat.zero_le _

/-- Witness for the amended C1: two atomic rounds on a one-proxy pool end
with the count at 2, within quota. -/
theorem quota_bounded_atomic_discipline_witness :
    ["http://a"].Nodup ∧
    atomicRun (initPool ["http://a"] REQUESTS_PER_HOUR 0) [0, 0] =
      some ⟨["http://a"], [("http://a", ⟨2, 0⟩)], ["http://a"], 150⟩ ∧
    UsageBounded ⟨["http://a"], [("http://a", ⟨2, 0⟩)], ["http://a"], 150⟩ :=
  ⟨by decide, by decide,
    quota_bounded_atomic_discipline ["http://a"] 0 [0, 0]
      ⟨["http://a"], [("http://a", ⟨2, 0⟩)], ["http://a"], 150⟩
      (by decide) (by decide)⟩

/-! ### The retry loop of `query_api` (C3, C5, C6, C7) -/

/-- One record returned by the remote API, as a parsed JSON object. -/
def ApiRecord := List (String × String)
deriving instance DecidableEq for ApiRecord

/-- The outcome of one `requests.post` call: an HTTP response with status
code and the parsed `records` list, a connection-level failure
(`requests.ConnectTimeout` / `requests.ConnectionError`), or some other
`requests.RequestException` (e.g. a read timeout). -/
inductive HttpOutcome where
  | status (code : Nat) (records : List ApiRecord)
  | connFailure
  | otherException
deriving DecidableEq

/-- `max_retries = 3` inside `query_api`. -/
def max_retries : Nat := 3

/-- The observable result of `query_api`'s while loop: the returned
records, the final `retry_count`, the number of loop iterations executed,
the `time.sleep` durations performed inside the loop (in order), the final
pool state and whether the loop ended by exhausting its retries. -/
structure QueryResult where
  records : List ApiRecord
  retry_count : Nat
  iters : Nat
  sleeps : List Nat
  pool : PoolState
  exhausted : Bool
deriving DecidableEq

/-- The `while retry_count < max_retries` loop of `query_api`.  The first
argument `n` is `max_retries - retry_count`, the number of iterations the
guard still allows; every branch of the loop body either returns or
increments `retry_count` by exactly one, so `n` decrements in lockstep and
`n = 0` is exactly the loop-exit condition.  Branches follow the source:
no proxy → warn, sleep 60, retry; HTTP 200 → increment usage, return
records; 429 → increment usage, sleep 1, retry; ≥ 500 → increment usage,
sleep 2, retry; other status → increment usage, retry; connection failure
→ evict proxy (usage never incremented, since `requests.post` raised
before the `increment_usage` line), retry; other request exception →
retry.  `none` propagates a `KeyError` crash from a pool operation. -/
def query_go (o : Nat → HttpOutcome) (now : Nat) :
    Nat → Nat → Nat → PoolState → Option QueryResult
  | 0, rc, _, st => some ⟨[], rc, 0, [], st, true⟩
  | n + 1, rc, idx, st =>
    match get_proxy now st with
    | none => none
    | some (none, st') =>
      (query_go o now n (rc + 1) idx st').map
        (fun r => ⟨r.records, r.retry_count, r.iters + 1, 60 :: r.sleeps,
          r.pool, r.exhausted⟩)
    | some (some p, st') =>
      match o idx with
      | .status code records =>
        let st2 := increment_usage st' p
        if code = 200 then some ⟨records, rc, 1, [], st2, false⟩
        else if code = 429 then
          (query_go o now n (rc + 1) (idx + 1) st2).map
            (fun r => ⟨r.records, r.retry_count, r.iters + 1, 1 :: r.sleeps,
              r.pool, r.exhausted⟩)
        else if 500 ≤ code then
          (query_go o now n (rc + 1) (idx + 1) st2).map
            (fun r => ⟨r.records, r.retry_count, r.iters + 1, 2 :: r.sleeps,
              r.pool, r.exhausted⟩)
        else
          (query_go o now n (rc + 1) (idx + 1) st2).map
            (fun r => ⟨r.records, r.retry_count, r.iters + 1, r.sleeps,
              r.pool, r.exhausted⟩)
      | .connFailure =>
        match mark_proxy_failed st' p with
        | none => none
        | some st2 =>
          (query_go o now n (rc + 1) (idx + 1) st2).map
            (fun r => ⟨r.records, r.retry_count, r.iters + 1, r.sleeps,
              r.pool, r.exhausted⟩)
      | .otherException =>
        (query_go o now n (rc + 1) (idx + 1) st').map
          (fun r => ⟨r.records, r.retry_count, r.iters + 1, r.sleeps,
            r.pool, r.exhausted⟩)

/-- `query_api`'s loop entered with `retry_count = 0`, as the source does. -/
def query_api_loop (o : Nat → HttpOutcome) (now : Nat) (st : PoolState) :
    Option QueryResult :=
  query_go o now max_retries 0 0 st

theorem query_go_bounds (o : Nat → HttpOutcome) (now : Nat) :
    ∀ n rc idx st r, query_go o now n rc idx st = some r →
      r.retry_count ≤ rc + n ∧ r.iters ≤ n ∧
        (r.exhausted = true → r.records = [] ∧ r.retry_count = rc + n) := by
  intro n
  induction n with
  | zero =>
    intro rc idx st r h
    simp only [query_go, Option.some.injEq] at h
    rw [← h]
    exact ⟨Nat.le_refl _, Nat.le_refl _, fun _ => ⟨rfl, rfl⟩⟩
  | succ n ih =>
    intro rc idx st r h
    simp only [query_go] at h
    match hget : get_proxy now st with
    | none => rw [hget] at h; exact absurd h (by simp)
    | some (none, st') =>
      rw [hget] at h
      simp only [Option.map_eq_some'] at h
      obtain ⟨r0, hr0, hr⟩ := h
      obtain ⟨h1, h2, h3⟩ := ih (rc + 1) idx st' r0 hr0
      rw [← hr]
      dsimp only
      refine ⟨by omega, by omega, fun hex => ?_⟩
      obtain ⟨hrec, hrc⟩ := h3 hex
      exact ⟨hrec, by omega⟩
    | some (some p, st') =>
      rw [hget] at h
      match hout : o idx with
      | .status code records =>
        rw [hout] at h
        dsimp only at h
        by_cases h200 : code = 200
        · rw [if_pos h200] at h
          simp only [Option.some.injEq] at h
          rw [← h]
          dsimp only
          exact ⟨by omega, by omega, fun hex => by simp at hex⟩
        · rw [if_neg h200] at h
          by_cases h429 : code = 429
          · rw [if_pos h429] at h
            simp only [Option.map_eq_some'] at h
            obtain ⟨r0, hr0, hr⟩ := h
            obtain ⟨h1, h2, h3⟩ := ih (rc + 1) (idx + 1) _ r0 hr0
            rw [← hr]
            dsimp only
            refine ⟨by omega, by omega, fun hex => ?_⟩
            obtain ⟨hrec, hrc⟩ := h3 hex
            exact ⟨hrec, by omega⟩
          · rw [if_neg h429] at h
            by_cases h500 : 500 ≤ code
            · rw [if_pos h500] at h
              simp only [Option.map_eq_some'] at h
              obtain ⟨r0, hr0, hr⟩ := h
              obtain ⟨h1, h2, h3⟩ := ih (rc + 1) (idx + 1) _ r0 hr0
              rw [← hr]
              dsimp only
              refine ⟨by omega, by omega, fun hex => ?_⟩
              obtain ⟨hrec, hrc⟩ := h3 hex
              exact ⟨hrec, by omega⟩
            · rw [if_neg h500] at h
              simp only [Option.map_eq_some'] at h
              obtain ⟨r0, hr0, hr⟩ := h
              obtain ⟨h1, h2, h3⟩ := ih (rc + 1) (idx + 1) _ r0 hr0
              rw [← hr]
              dsimp only
              refine ⟨by omega, by omega, fun hex => ?_⟩
              obtain ⟨hrec, hrc⟩ := h3 hex
              exact ⟨hrec, by omega⟩
      | .connFailure =>
        rw [hout] at h
        dsimp only at h
        match hmark : mark_proxy_failed st' p with
        | none => rw [hmark] at h; exact absurd h (by simp)
        | some st2 =>
          rw [hmark] at h
          simp only [Option.map_eq_some'] at h
          obtain ⟨r0, hr0, hr⟩ := h
          obtain ⟨h1, h2, h3⟩ := ih (rc + 1) (idx + 1) st2 r0 hr0
          rw [← hr]
          dsimp only
          refine ⟨by omega, by omega, fun hex => ?_⟩
          obtain ⟨hrec, hrc⟩ := h3 hex
          exact ⟨hrec, by omega⟩
      | .otherException =>
        rw [hout] at h
        dsimp only at h
        simp only [Option.map_eq_some'] at h
        obtain ⟨r0, hr0, hr⟩ := h
        obtain ⟨h1, h2, h3⟩ := ih (rc + 1) (idx + 1) st' r0 hr0
        rw [← hr]
        dsimp only
        refine ⟨by omega, by omega, fun hex => ?_⟩
        obtain ⟨hrec, hrc⟩ := h3 hex
        exact ⟨hrec, by omega⟩

/-- C5: for every subject, the loop of `query_api` performs at most
`max_retries = 3` iterations; the final `retry_count` — which counts
exactly the retryable request attempts and the failed proxy acquisitions —
never exceeds `max_retries`, and when the loop ends by exhaustion the
subject yields zero records (the normal give-up path `return []`). -/
theorem retry_budget_bounded (o : Nat → HttpOutcome) (now : Nat)
    (st : PoolState) (r : QueryResult)
    (h : query_api_loop o now st = some r) :
    r.retry_count ≤ max_retries ∧ r.iters ≤ max_retries ∧
      (r.exhausted = true → r.records = []) := by
  obtain ⟨h1, h2, h3⟩ := query_go_bounds o now max_retries 0 0 st r h
  exact ⟨by simpa using h1, h2, fun hex => (h3 hex).1⟩

/-- Witness for C5: a run that succeeds on the second attempt (HTTP 500
then HTTP 200) stays within the retry budget. -/
theorem retry_budget_bounded_witness :
    query_api_loop
      (fun i => if i = 0 then .status 500 [] else .status 200 [[("case", "1")]])
      0 (initPool ["http://a"] REQUESTS_PER_HOUR 0) =
      some ⟨[[("case", "1")]], 1, 2, [2],
        ⟨["http://a"], [("http://a", ⟨2, 0⟩)], ["http://a"], 150⟩, false⟩ ∧
    (1 ≤ max_retries ∧ 2 ≤ max_retries ∧ (false = true → [[("case", "1")]] = [])) := by
  constructor
  · decide
  · exact retry_budget_bounded
      (fun i => if i = 0 then .status 500 [] else .status 200 [[("case", "1")]]) 0
      (initPool ["http://a"] REQUESTS_PER_HOUR 0)
      ⟨[[("case", "1")]], 1, 2, [2],
        ⟨["http://a"], [("http://a", ⟨2, 0⟩)], ["http://a"], 150⟩, false⟩
      (by decide)

theorem query_go_empty_pool (o : Nat → HttpOutcome) (now : Nat) :
    ∀ n rc idx st, st.proxies = [] →
      (query_go o now n rc idx st).map
        (fun r => (r.records, r.sleeps, r.iters, r.exhausted)) =
        some ([], List.replicate n 60, n, true) := by
  intro n
  induction n with
  | zero =>
    intro rc idx st _
    simp [query_go]
  | succ n ih =>
    intro rc idx st hmt
    have hget : get_proxy now st = some (none, st) := by
      simp [get_proxy, hmt]
    simp only [query_go, hget]
    have hrec := ih (rc + 1) idx st hmt
    match hq : query_go o now n (rc + 1) idx st with
    | none => rw [hq] at hrec; simp at hrec
    | some r0 =>
      rw [hq] at hrec
      simp only [Option.map_some', Option.some.injEq, Prod.mk.injEq] at hrec ⊢
      obtain ⟨hrecs, hsl, hit, hex⟩ := hrec
      refine ⟨hrecs, ?_, by omega, hex⟩
      rw [hsl]
      exact (List.replicate_succ 60 n).symm

/-- C7: the retry loop terminates even when the pool is permanently
unavailable: entering `query_api`'s loop against an empty pool performs
exactly `max_retries = 3` iterations, each consisting of a failed
acquisition followed by the fixed 60-second backoff sleep and a
`retry_count` increment, and ends in the exhausted zero-records outcome. -/
theorem unavailable_pool_bounded_backoff (o : Nat → HttpOutcome) (now : Nat)
    (st : PoolState) (hmt : st.proxies = []) :
    (query_api_loop o now st).map
      (fun r => (r.records, r.sleeps, r.iters, r.exhausted)) =
      some ([], List.replicate max_retries 60, max_retries, true) :=
  query_go_empty_pool o now max_retries 0 0 st hmt

/-- Witness for C7: a pool initialized with no proxies. -/
theorem unavailable_pool_bounded_backoff_witness :
    (initPool [] 150 0).proxies = [] ∧
    (query_api_loop (fun _ => HttpOutcome.connFailure) 0 (initPool [] 150 0)).map
      (fun r => (r.records, r.sleeps, r.iters, r.exhausted)) =
      some ([], List.replicate max_retries 60, max_retries, true) :=
  ⟨rfl, unavailable_pool_bounded_backoff (fun _ => HttpOutcome.connFailure)
    0 (initPool [] 150 0) rfl⟩

/-- The network oracle for the C3 counterexample: the first request gets a
client-error status (HTTP 404), every later request succeeds with one
record. -/
def clientErrorThenSuccess : Nat → HttpOutcome :=
  fun i => if i = 0 then .status 404 [] else .status 200 [[("case", "A")]]

/-- Counterexample to C3 as stated: after a first attempt classified as a
client error (HTTP 404 — not 200, 429 or 5xx), the subject does not
terminate with zero records; the loop re-enters the acquire/attempt cycle
and the second attempt returns a record.  The run performs 2 iterations
and yields a non-empty record list, so a client error is retried rather
than ending the subject immediately. -/
theorem client_error_retried_counterexample :
    (query_api_loop clientErrorThenSuccess 0
        (initPool ["http://a"] REQUESTS_PER_HOUR 0)).map
      (fun r => (r.records, r.iters, r.exhausted)) =
      some ([[("case", "A")]], 2, false) ∧
    ([[("case", "A")]] : List ApiRecord) ≠ [] := by
  constructor
  · decide
  · decide

theorem query_go_client_error_step (o : Nat → HttpOutcome) (now n rc idx : Nat)
    (st st' : PoolState) (p : String) (code : Nat) (recs : List ApiRecord)
    (hget : get_proxy now st = some (some p, st'))
    (hout : o idx = .status code recs)
    (h200 : code ≠ 200) (h429 : code ≠ 429) (h500 : ¬ 500 ≤ code) :
    query_go o now (n + 1) rc idx st =
      (query_go o now n (rc + 1) (idx + 1) (increment_usage st' p)).map
        (fun r => ⟨r.records, r.retry_count, r.iters + 1, r.sleeps,
          r.pool, r.exhausted⟩) := by
  simp only [query_go, hget, hout]
  rw [if_neg h200, if_neg h429, if_neg h500]

/-- The single-proxy pool state after `k` usage increments, as reached by
the loop iterations in the amended C3 theorem. -/
def singlePoolAt (k : Nat) : PoolState :=
  ⟨["http://a"], [("http://a", ⟨k, 0⟩)], ["http://a"], 150⟩

/-- C3 (amended): the claim fails on the code (see
`client_error_retried_counterexample`): a client-error status (neither
200 nor 429 nor ≥ 500) does not end the subject immediately.  Instead the
`else` branch logs, increments `retry_count` with no extra delay, and
re-enters the acquire/attempt loop like the retryable classifications; the
subject yields zero records only once `max_retries = 3` attempts have been
consumed.  Here: against a pool with one under-quota proxy, if every
response carries such a client-error status the loop runs exactly 3
iterations, sleeps never, and ends exhausted with zero records. -/
theorem client_error_consumes_budget (code : Nat) (recs : List ApiRecord)
    (h200 : code ≠ 200) (h429 : code ≠ 429) (h500 : code < 500) :
    (query_api_loop (fun _ => .status code recs) 0
        (initPool ["http://a"] REQUESTS_PER_HOUR 0)).map
      (fun r => (r.records, r.retry_count, r.iters, r.sleeps, r.exhausted)) =
      some ([], 3, 3, [], true) := by
  have hn500 : ¬ 500 ≤ code := Nat.not_le.mpr h500
  have hinc0 : increment_usage (singlePoolAt 0) "http://a" = singlePoolAt 1 := by
    decide
  have hinc1 : increment_usage (singlePoolAt 1) "http://a" = singlePoolAt 2 := by
    decide
  have hinc2 : increment_usage (singlePoolAt 2) "http://a" = singlePoolAt 3 := by
    decide
  have e1 : query_go (fun _ => .status code recs) 0 3 0 0 (singlePoolAt 0) =
      (query_go (fun _ => .status code recs) 0 2 1 1 (singlePoolAt 1)).map
        (fun r => ⟨r.records, r.retry_count, r.iters + 1, r.sleeps,
          r.pool, r.exhausted⟩) := by
    have h := query_go_client_error_step (fun _ => .status code recs) 0 2 0 0
      (singlePoolAt 0) (singlePoolAt 0) "http://a" code recs
      (by decide) rfl h200 h429 hn500
    rw [hinc0] at h
    exact h
  have e2 : query_go (fun _ => .status code recs) 0 2 1 1 (singlePoolAt 1) =
      (query_go (fun _ => .status code recs) 0 1 2 2 (singlePoolAt 2)).map
        (fun r => ⟨r.records, r.retry_count, r.iters + 1, r.sleeps,
          r.pool, r.exhausted⟩) := by
    have h := query_go_client_error_step (fun _ => .status code recs) 0 1 1 1
      (singlePoolAt 1) (singlePoolAt 1) "http://a" code recs
      (by decide) rfl h200 h429 hn500
    rw [hinc1] at h
    exact h
  have e3 : query_go (fun _ => .status code recs) 0 1 2 2 (singlePoolAt 2) =
      (query_go (fun _ => .status code recs) 0 0 3 3 (singlePoolAt 3)).map
        (fun r => ⟨r.records, r.retry_count, r.iters + 1, r.sleeps,
          r.pool, r.exhausted⟩) := by
    have h := query_go_client_error_step (fun _ => .status code recs) 0 0 2 2
      (singlePoolAt 2) (singlePoolAt 2) "http://a" code recs
      (by decide) rfl h200 h429 hn500
    rw [hinc2] at h
    exact h
  show (query_go (fun _ => .status code recs) 0 3 0 0 (singlePoolAt 0)).map
      (fun r => (r.records, r.retry_count, r.iters, r.sleeps, r.exhausted)) =
      some ([], 3, 3, [], true)
  rw [e1, e2, e3]
  rfl

/-- Witness for the amended C3 at status code 404. -/
theorem client_error_consumes_budget_witness :
    ((404 : Nat) ≠ 200 ∧ (404 : Nat) ≠ 429 ∧ (404 : Nat) < 500) ∧
    (query_api_loop (fun _ => .status 404 []) 0
        (initPool ["http://a"] REQUESTS_PER_HOUR 0)).map
      (fun r => (r.records, r.retry_count, r.iters, r.sleeps, r.exhausted)) =
      some ([], 3, 3, [], true) :=
  ⟨⟨by decide, by decide, by decide⟩,
    client_error_consumes_budget 404 [] (by decide) (by decide) (by decide)⟩

/-- C6: when a granted attempt ends in a connection-level failure
(`requests.ConnectTimeout` / `ConnectionError`), the loop (i) evicts the
endpoint used for the attempt from the pool, (ii) records no usage for the
attempt — every usage entry surviving the step is an unchanged entry of
the pre-attempt table, since `requests.post` raised before the
`increment_usage` line — and (iii) re-enters the acquire phase with the
failure counted against the subject's retry budget (`retry_count + 1`). -/
theorem conn_failure_evicts_no_usage (o : Nat → HttpOutcome)
    (now n rc idx : Nat) (st st' st2 : PoolState) (p : String)
    (hget : get_proxy now st = some (some p, st'))
    (hout : o idx = .connFailure)
    (hnd : st'.proxies.Nodup)
    (hmark : mark_proxy_failed st' p = some st2) :
    query_go o now (n + 1) rc idx st =
      (query_go o now n (rc + 1) (idx + 1) st2).map
        (fun r => ⟨r.records, r.retry_count, r.iters + 1, r.sleeps,
          r.pool, r.exhausted⟩) ∧
    p ∉ st2.proxies ∧
    st2.usage.all (fun e => decide (e ∈ st'.usage)) = true := by
  refine ⟨?_, ?_, ?_⟩
  · simp only [query_go, hget, hout, hmark]
  · unfold mark_proxy_failed at hmark
    by_cases hp : p ∈ st'.proxies
    · rw [if_pos hp] at hmark
      match hl : lookupData st'.usage p with
      | none => rw [hl] at hmark; exact absurd hmark (by simp)
      | some d =>
        rw [hl] at hmark
        simp only [Option.some.injEq] at hmark
        rw [← hmark]
        exact hnd.not_mem_erase
    · rw [if_neg hp] at hmark
      simp only [Option.some.injEq] at hmark
      rw [← hmark]
      exact hp
  · have hsub : ∀ e ∈ st2.usage, e ∈ st'.usage := by
      unfold mark_proxy_failed at hmark
      by_cases hp : p ∈ st'.proxies
      · rw [if_pos hp] at hmark
        match hl : lookupData st'.usage p with
        | none => rw [hl] at hmark; exact absurd hmark (by simp)
        | some d =>
          rw [hl] at hmark
          simp only [Option.some.injEq] at hmark
          rw [← hmark]
          intro e hmem
          exact (List.eraseP_sublist _).mem hmem
      · rw [if_neg hp] at hmark
        simp only [Option.some.injEq] at hmark
        rw [← hmark]
        exact fun e hmem => hmem
    rw [List.all_eq_true]
    intro e hmem
    simpa using hsub e hmem

/-- Witness for C6 at a concrete two-proxy pool whose first attempt fails
at the connection level. -/
theorem conn_failure_evicts_no_usage_witness :
    get_proxy 0 (initPool ["http://a", "http://b"] 150 0) =
      some (some "http://a",
        ⟨["http://a", "http://b"], [("http://a", ⟨0, 0⟩), ("http://b", ⟨0, 0⟩)],
          ["http://b", "http://a"], 150⟩) ∧
    (fun _ : Nat => HttpOutcome.connFailure) 0 = HttpOutcome.connFailure ∧
    (⟨["http://a", "http://b"], [("http://a", ⟨0, 0⟩), ("http://b", ⟨0, 0⟩)],
      ["http://b", "http://a"], 150⟩ : PoolState).proxies.Nodup ∧
    mark_proxy_failed
      (⟨["http://a", "http://b"], [("http://a", ⟨0, 0⟩), ("http://b", ⟨0, 0⟩)],
        ["http://b", "http://a"], 150⟩ : PoolState) "http://a" =
      some ⟨["http://b"], [("http://b", ⟨0, 0⟩)], ["http://b"], 150⟩ ∧
    (query_go (fun _ => HttpOutcome.connFailure) 0 (2 + 1) 0 0
        (initPool ["http://a", "http://b"] 150 0) =
      (query_go (fun _ => HttpOutcome.connFailure) 0 2 1 1
          ⟨["http://b"], [("http://b", ⟨0, 0⟩)], ["http://b"], 150⟩).map
        (fun r => ⟨r.records, r.retry_count, r.iters + 1, r.sleeps,
          r.pool, r.exhausted⟩) ∧
      "http://a" ∉
        (⟨["http://b"], [("http://b", ⟨0, 0⟩)], ["http://b"], 150⟩ :
          PoolState).proxies ∧
      (⟨["http://b"], [("http://b", ⟨0, 0⟩)], ["http://b"], 150⟩ :
          PoolState).usage.all
        (fun e => decide (e ∈
          (⟨["http://a", "http://b"], [("http://a", ⟨0, 0⟩), ("http://b", ⟨0, 0⟩)],
            ["http://b", "http://a"], 150⟩ : PoolState).usage)) = true) :=
  ⟨by decide, rfl, by decide, by decide,
    conn_failure_evicts_no_usage (fun _ => HttpOutcome.connFailure) 0 2 0 0
      (initPool ["http://a", "http://b"] 150 0)
      ⟨["http://a", "http://b"], [("http://a", ⟨0, 0⟩), ("http://b", ⟨0, 0⟩)],
        ["http://b", "http://a"], 150⟩
      ⟨["http://b"], [("http://b", ⟨0, 0⟩)], ["http://b"], 150⟩ "http://a"
      (by decide) rfl (by decide) (by decide)⟩

/-! ### C9: the query payload -/

/-- One input row of `sample_person.csv`, as read by `read_csv`. -/
structure Person where
  id : String
  family_name : String
  name : String
  patronymic : String
  birth_date : String
  death_date : String
deriving DecidableEq

/-- The JSON body posted to the API by `query_api`. -/
structure Payload where
  name : String
  birth_date : String
  death_date : String
deriving DecidableEq

def isLeapYear (y : Nat) : Bool :=
  y % 4 = 0 && (y % 100 ≠ 0 || y % 400 = 0)

def daysInMonth (y m : Nat) : Nat :=
  if m = 2 then (if isLeapYear y then 29 else 28)
  else if m = 4 ∨ m = 6 ∨ m = 9 ∨ m = 11 then 30
  else 31

def digitVal (c : Char) : Nat := c.toNat - '0'.toNat

/-- The composition `datetime.strptime(s, "%Y-%m-%d").strftime("%Y%m%d")`
on the canonical `YYYY-MM-DD` schema of the subject source (§6): a
ten-character string of four year digits, a dash, two month digits, a
dash and two day digits, with the month in 1..12 and the day within the
month's length, reformats to the same eight digits with the dashes
dropped; anything else raises `ValueError` (`none`).  (CPython's
`strptime` additionally tolerates un-padded month/day; the input schema
fixes the padded form, so the embedding is stated on that domain.) -/
def reformatBirthDate (s : String) : Option String :=
  match s.data with
  | [y1, y2, y3, y4, h1, m1, m2, h2, d1, d2] =>
    if h1 = '-' ∧ h2 = '-' ∧
        y1.isDigit ∧ y2.isDigit ∧ y3.isDigit ∧ y4.isDigit ∧
        m1.isDigit ∧ m2.isDigit ∧ d1.isDigit ∧ d2.isDigit then
      let y := ((digitVal y1 * 10 + digitVal y2) * 10 + digitVal y3) * 10 +
        digitVal y4
      let m := digitVal m1 * 10 + digitVal m2
      let d := digitVal d1 * 10 + digitVal d2
      if 1 ≤ m ∧ m ≤ 12 ∧ 1 ≤ d ∧ d ≤ daysInMonth y m then
        some ⟨[y1, y2, y3, y4, m1, m2, d1, d2]⟩
      else none
    else none
  | _ => none

/-- The payload built at the top of `query_api` (v4): the three name parts
joined by single spaces, the birth date in compact numeric form, and the
death-date field always the literal string `"NULL"`.  `none` when
`strptime` raises. -/
def buildPayload (p : Person) : Option Payload :=
  (reformatBirthDate p.birth_date).map
    (fun bd =>
      ⟨p.family_name ++ " " ++ p.name ++ " " ++ p.patronymic, bd, "NULL"⟩)

theorem reformatBirthDate_spec (s t : String)
    (h : reformatBirthDate s = some t) :
    t.data = s.data.filter (fun c => c ≠ '-') ∧ t.length = 8 := by
  unfold reformatBirthDate at h
  split at h
  · rename_i y1 y2 y3 y4 h1 m1 m2 h2 d1 d2 heq
    split at h
    · rename_i hc
      dsimp only at h
      split at h
      · rename_i hrange
        obtain ⟨hh1, hh2, hy1, hy2, hy3, hy4, hm1, hm2, hd1, hd2⟩ := hc
        have hdash : ∀ c : Char, c.isDigit → c ≠ '-' := by
          intro c hdig hcontra
          rw [hcontra] at hdig
          exact absurd hdig (by decide)
        have ht : t = ⟨[y1, y2, y3, y4, m1, m2, d1, d2]⟩ :=
          (Option.some.injEq _ _ ▸ h).symm
        rw [ht, heq]
        constructor
        · simp [hh1, hh2, hdash y1 hy1, hdash y2 hy2, hdash y3 hy3,
            hdash y4 hy4, hdash m1 hm1, hdash m2 hm2, hdash d1 hd1,
            hdash d2 hd2]
        · rfl
      · exact absurd h (by simp)
    · exact absurd h (by simp)
  · exact absurd h (by simp)

/-- C9: whenever `query_api` builds a payload for a subject, the payload
has exactly the three fields of the source literal: `name` is the family
name, given name and patronymic joined by single spaces; `birth_date` is
the subject's `YYYY-MM-DD` birth date with the dashes dropped (the compact
eight-digit numeric form); and `death_date` is the literal absence marker
`"NULL"` — independent of the subject's actual death date, as the final
conjunct states by varying that field. -/
theorem payload_shape (p : Person) (pl : Payload)
    (h : buildPayload p = some pl) :
    pl.name = p.family_name ++ " " ++ p.name ++ " " ++ p.patronymic ∧
    pl.birth_date.data = p.birth_date.data.filter (fun c => c ≠ '-') ∧
    pl.birth_date.length = 8 ∧
    pl.death_date = "NULL" ∧
    (∀ dd : String, buildPayload
      ⟨p.id, p.family_name, p.name, p.patronymic, p.birth_date, dd⟩ =
      some pl) := by
  unfold buildPayload at h
  match hr : reformatBirthDate p.birth_date with
  | none => rw [hr] at h; exact absurd h (by simp)
  | some bd =>
    rw [hr] at h
    simp only [Option.map_some', Option.some.injEq] at h
    obtain ⟨hdata, hlen⟩ := reformatBirthDate_spec _ _ hr
    rw [← h]
    refine ⟨rfl, hdata, hlen, rfl, ?_⟩
    intro dd
    unfold buildPayload
    simp only [hr, Option.map_some']

/-- Witness for C9 at a concrete subject (with a non-`"NULL"` death date,
showing it is ignored). -/
theorem payload_shape_witness :
    buildPayload ⟨"1", "Ivanov", "Ivan", "Ivanovich", "1980-01-02", "2001-05-06"⟩ =
      some ⟨"Ivanov Ivan Ivanovich", "19800102", "NULL"⟩ ∧
    ("Ivanov Ivan Ivanovich" = "Ivanov" ++ " " ++ "Ivan" ++ " " ++ "Ivanovich" ∧
      ("19800102" : String).data =
        ("1980-01-02" : String).data.filter (fun c => c ≠ '-') ∧
      ("19800102" : String).length = 8 ∧
      ("NULL" : String) = "NULL" ∧
      buildPayload ⟨"1", "Ivanov", "Ivan", "Ivanovich", "1980-01-02", ""⟩ =
        some ⟨"Ivanov Ivan Ivanovich", "19800102", "NULL"⟩) :=
  have h := payload_shape
    ⟨"1", "Ivanov", "Ivan", "Ivanovich", "1980-01-02", "2001-05-06"⟩
    ⟨"Ivanov Ivan Ivanovich", "19800102", "NULL"⟩ (by decide)
  ⟨by decide, h.1, h.2.1, h.2.2.1, h.2.2.2.1, h.2.2.2.2 ""⟩

/-! ### C2: merging API records with subject identity fields -/

/-- Lookup in a parsed JSON object / Python dict (association list with
distinct keys, in insertion order). -/
def lookupVal (r : List (String × String)) (k : String) : Option String :=
  (r.find? (fun e => e.1 == k)).map (fun e => e.2)

/-- Python `d.update(u)` on dicts kept as insertion-ordered association
lists: keys already in `d` keep their position but take `u`'s value; keys
of `u` not in `d` are appended in `u`'s order. -/
def dict_update (d u : List (String × String)) : List (String × String) :=
  d.map (fun e =>
    match lookupVal u e.1 with
    | some v => (e.1, v)
    | none => e) ++
  u.filter (fun e => (lookupVal d e.1).isNone)

/-- The dict literal `record_with_person` built in `process_person` (v4)
before `record_with_person.update(record)`: the subject's identity
fields. -/
def identity_fields_v4 (p : Person) : List (String × String) :=
  [("person_id", p.id), ("family_name", p.family_name), ("name", p.name),
    ("patronymic", p.patronymic), ("birth_date", p.birth_date)]

/-- The merge in v4's `process_person`: start from the identity dict and
`update` it with the API record. -/
def merge_v4 (p : Person) (record : List (String × String)) :
    List (String × String) :=
  dict_update (identity_fields_v4 p) record

/-- The identity dict passed to `record.update({...})` in v3's `main`
(note: v3 attaches `death_date`, not `birth_date`). -/
def identity_fields_v3 (p : Person) : List (String × String) :=
  [("person_id", p.id), ("family_name", p.family_name), ("name", p.name),
    ("patronymic", p.patronymic), ("death_date", p.death_date)]

/-- The merge in v3's `main`: start from the API record and `update` it
with the identity dict. -/
def merge_v3 (p : Person) (record : List (String × String)) :
    List (String × String) :=
  dict_update record (identity_fields_v3 p)

/-- `process_person` (v4): one merged result record per API record, in
order. -/
def process_person (p : Person) (records : List (List (String × String))) :
    List (List (String × String)) :=
  records.map (fun record => merge_v4 p record)

theorem lookupVal_nil (k : String) : lookupVal [] k = none := rfl

theorem lookupVal_cons (e : String × String) (r : List (String × String))
    (k : String) :
    lookupVal (e :: r) k = if e.1 = k then some e.2 else lookupVal r k := by
  by_cases h : e.1 = k
  · rw [if_pos h]
    unfold lookupVal
    rw [List.find?_cons_of_pos _ (by simp [h])]
    rfl
  · rw [if_neg h]
    unfold lookupVal
    rw [List.find?_cons_of_neg _ (by simp [h])]

theorem lookupVal_append (a b : List (String × String)) (k : String) :
    lookupVal (a ++ b) k =
      match lookupVal a k with
      | some v => some v
      | none => lookupVal b k := by
  induction a with
  | nil => simp [lookupVal_nil]
  | cons e tl ih =>
    rw [List.cons_append, lookupVal_cons, lookupVal_cons]
    by_cases h : e.1 = k
    · simp [h]
    · rw [if_neg h, if_neg h, ih]

theorem lookupVal_filter_key (u : List (String × String)) (P : String → Bool)
    (k : String) :
    lookupVal (u.filter (fun e => P e.1)) k =
      if P k then lookupVal u k else none := by
  induction u with
  | nil => simp [lookupVal_nil]
  | cons e tl ih =>
    rw [List.filter_cons]
    by_cases hk : e.1 = k
    · subst hk
      by_cases hp : P e.1
      · rw [if_pos (by simpa using hp), lookupVal_cons, if_pos rfl,
          if_pos hp, lookupVal_cons, if_pos rfl]
      · rw [if_neg (by simpa using hp), ih, if_neg hp, if_neg hp]
    · by_cases hp : P e.1
      · rw [if_pos (by simpa using hp), lookupVal_cons, if_neg hk, ih]
        by_cases hpk : P k
        · rw [if_pos hpk, if_pos hpk, lookupVal_cons, if_neg hk]
        · rw [if_neg hpk, if_neg hpk]
      · rw [if_neg (by simpa using hp), ih]
        by_cases hpk : P k
        · rw [if_pos hpk, if_pos hpk, lookupVal_cons, if_neg hk]
        · rw [if_neg hpk, if_neg hpk]

theorem lookupVal_map_update (d u : List (String × String)) (k : String) :
    lookupVal (d.map (fun e =>
      match lookupVal u e.1 with
      | some v => (e.1, v)
      | none => e)) k =
      match lookupVal d k with
      | some w =>
        match lookupVal u k with
        | some v => some v
        | none => some w
      | none => none := by
  induction d with
  | nil => simp [lookupVal_nil]
  | cons e tl ih =>
    rw [List.map_cons]
    by_cases hk : e.1 = k
    · subst hk
      match hu : lookupVal u e.1 with
      | some v => simp [lookupVal_cons, hu]
      | none => simp [lookupVal_cons, hu]
    · match hu : lookupVal u e.1 with
      | some v => simp [lookupVal_cons, hu, hk, ih]
      | none => simp [lookupVal_cons, hu, hk, ih]

theorem lookupVal_dict_update (d u : List (String × String)) (k : String) :
    lookupVal (dict_update d u) k =
      match lookupVal d k with
      | some w =>
        match lookupVal u k with
        | some v => some v
        | none => some w
      | none => lookupVal u k := by
  unfold dict_update
  rw [lookupVal_append, lookupVal_map_update,
    lookupVal_filter_key u (fun s => (lookupVal d s).isNone) k]
  match hd : lookupVal d k with
  | some w =>
    match hu : lookupVal u k with
    | some v => simp [hu]
    | none => simp [hu]
  | none => simp [hd]

/-- Counterexample to C2 as stated: in v4's `process_person` the merge is
`record_with_person.update(record)`, so on a key collision the API
record's value overwrites the subject's identity value.  For a subject
named `"Ivan"` and an API record that also carries a `"name"` key, the
appended result record holds the record's value, not the subject's. -/
theorem merge_identity_loses_counterexample :
    lookupVal
      (merge_v4 ⟨"1", "Ivanov", "Ivan", "Ivanovich", "1980-01-02", "NULL"⟩
        [("name", "APIVALUE"), ("case_number", "77")]) "name" =
      some "APIVALUE" ∧
    (⟨"1", "Ivanov", "Ivan", "Ivanovich", "1980-01-02", "NULL"⟩ : Person).name =
      "Ivan" ∧
    some "APIVALUE" ≠ some "Ivan" := by
  refine ⟨by decide, rfl, by decide⟩

/-- C2 (amended): in v4's `process_person` the API record's fields take
precedence on duplicate key names — the subject's identity fields survive
only for keys the record lacks; it is v3's `main` (which updates the
record with the identity dict) where the identity fields overwrite the
record. -/
theorem merge_precedence (p : Person) (r : List (String × String))
    (k v : String) :
    (lookupVal r k = some v → lookupVal (merge_v4 p r) k = some v) ∧
    (lookupVal r k = none → lookupVal (merge_v4 p r) k =
      lookupVal (identity_fields_v4 p) k) ∧
    (lookupVal (identity_fields_v3 p) k = some v →
      lookupVal (merge_v3 p r) k = some v) := by
  refine ⟨?_, ?_, ?_⟩
  · intro h
    unfold merge_v4
    rw [lookupVal_dict_update]
    match hd : lookupVal (identity_fields_v4 p) k with
    | some w => rw [h]
    | none => rw [h]
  · intro h
    unfold merge_v4
    rw [lookupVal_dict_update]
    match hd : lookupVal (identity_fields_v4 p) k with
    | some w => rw [h]
    | none => rw [h]
  · intro h
    unfold merge_v3
    rw [lookupVal_dict_update]
    match hd : lookupVal r k with
    | some w => rw [h]
    | none => rw [h]

/-- Witness for the amended C2 at concrete collision inputs. -/
theorem merge_precedence_witness :
    (lookupVal [("name", "APIVALUE"), ("case_number", "77")] "name" =
        some "APIVALUE" ∧
      lookupVal
        (merge_v4 ⟨"1", "Ivanov", "Ivan", "Ivanovich", "1980-01-02", "NULL"⟩
          [("name", "APIVALUE"), ("case_number", "77")]) "name" =
        some "APIVALUE") ∧
    (lookupVal (identity_fields_v3
          ⟨"1", "Ivanov", "Ivan", "Ivanovich", "1980-01-02", "NULL"⟩) "name" =
        some "Ivan" ∧
      lookupVal
        (merge_v3 ⟨"1", "Ivanov", "Ivan", "Ivanovich", "1980-01-02", "NULL"⟩
          [("name", "APIVALUE"), ("case_number", "77")]) "name" =
        some "Ivan") :=
  ⟨⟨by decide,
      (merge_precedence ⟨"1", "Ivanov", "Ivan", "Ivanovich", "1980-01-02", "NULL"⟩
        [("name", "APIVALUE"), ("case_number", "77")] "name" "APIVALUE").1
        (by decide)⟩,
    ⟨by decide,
      (merge_precedence ⟨"1", "Ivanov", "Ivan", "Ivanovich", "1980-01-02", "NULL"⟩
        [("name", "APIVALUE"), ("case_number", "77")] "name" "Ivan").2.2
        (by decide)⟩⟩

/-! ### C8: checkpoint writes -/

/-- The observable content of `results.json`.  `save_results` opens the
file with mode `"w"` — which truncates it in place — and then streams
`json.dump` into it, so between the truncation and the completed dump an
external reader observes a torn, unparsable artifact (`truncated`); after
the dump completes it observes the full serialized snapshot
(`content`). -/
inductive FileState where
  | absent
  | truncated
  | content (records : List (List (String × String)))
deriving DecidableEq

/-- The checkpoint-relevant program state: the global `results` list, the
on-disk artifact, and whether a `save_results` call is in progress. -/
structure RunState where
  results : List (List (String × String))
  file : FileState
  saving : Bool
deriving DecidableEq

/-- Micro-events of the main loop: `results.extend(records)` when a future
is drained, and the two observable halves of `save_results` — the
truncating `open(OUTPUT_FILE, "w")` and the completed `json.dump` of the
entire current `results`. -/
inductive CkptEvent where
  | append (recs : List (List (String × String)))
  | beginSave
  | endSave
deriving DecidableEq

def ckptStep (st : RunState) : CkptEvent → RunState
  | .append recs => ⟨st.results ++ recs, st.file, st.saving⟩
  | .beginSave => ⟨st.results, .truncated, true⟩
  | .endSave => ⟨st.results, .content st.results, false⟩

/-- The state before any work: empty `results`, no artifact yet. -/
def initRun : RunState := ⟨[], .absent, false⟩

def runCkpt (st : RunState) (evs : List CkptEvent) : RunState :=
  evs.foldl ckptStep st

/-- The snapshots written by the completed saves of a trace, in order:
each is the entire `results` list at its `json.dump`. -/
def snapshots (st : RunState) : List CkptEvent → List (List (List (String × String)))
  | [] => []
  | e :: es =>
    match e with
    | .endSave => st.results :: snapshots (ckptStep st e) es
    | _ => snapshots (ckptStep st e) es

/-- Whether the artifact currently parses as a complete JSON document. -/
def parsesAsDocument : FileState → Bool
  | .content _ => true
  | _ => false

/-- Outside an in-progress write, the artifact is either not yet created
or a complete snapshot of some prefix of the current results. -/
def completeOutsideWrite (st : RunState) : Bool :=
  match st.file with
  | .absent => true
  | .truncated => false
  | .content rs => rs.isPrefixOf st.results

/-- Counterexample to C8 as stated: `save_results` is not an atomic
replacement.  After a first completed write of one record, a second
`save_results` call's `open(OUTPUT_FILE, "w")` truncates the artifact in
place; at that observed instant — after the first write — the artifact is
torn and does not parse as a complete document. -/
theorem checkpoint_torn_write_counterexample :
    (runCkpt initRun [.append [[("case", "1")]], .beginSave, .endSave]).file =
      .content [[("case", "1")]] ∧
    (runCkpt initRun
      [.append [[("case", "1")]], .beginSave, .endSave, .beginSave]).file =
      .truncated ∧
    parsesAsDocument .truncated = false := by
  refine ⟨by decide, by decide, by decide⟩

theorem chain_le_weaken (a b : Nat) (l : List Nat)
    (h : List.Chain' (fun x y => x ≤ y) (a :: l)) (hba : b ≤ a) :
    List.Chain' (fun x y => x ≤ y) (b :: l) := by
  match l with
  | [] => simp
  | c :: cs =>
    rw [List.chain'_cons] at h ⊢
    exact ⟨Nat.le_trans hba h.1, h.2⟩

theorem snapshots_lengths_chain :
    ∀ evs st, List.Chain' (fun x y => x ≤ y)
      (st.results.length :: (snapshots st evs).map List.length) := by
  intro evs
  induction evs with
  | nil => intro st; simp [snapshots]
  | cons e es ih =>
    intro st
    match e with
    | .append recs =>
      have h := ih (ckptStep st (.append recs))
      simp only [snapshots]
      refine chain_le_weaken _ _ _ h ?_
      simp [ckptStep]
    | .beginSave =>
      have h := ih (ckptStep st .beginSave)
      simp only [snapshots]
      exact h
    | .endSave =>
      have h := ih (ckptStep st .endSave)
      simp only [snapshots, List.map_cons]
      rw [List.chain'_cons]
      exact ⟨Nat.le_refl _, h⟩

theorem completeOutsideWrite_invariant :
    ∀ evs st, (st.saving = false → completeOutsideWrite st = true) →
      ((runCkpt st evs).saving = false →
        completeOutsideWrite (runCkpt st evs) = true) := by
  intro evs
  induction evs with
  | nil => intro st h; exact h
  | cons e es ih =>
    intro st h
    show (runCkpt (ckptStep st e) es).saving = false →
      completeOutsideWrite (runCkpt (ckptStep st e) es) = true
    apply ih
    match e with
    | .append recs =>
      intro hs
      simp only [ckptStep] at hs ⊢
      have h2 := h hs
      unfold completeOutsideWrite at h2 ⊢
      match hf : st.file with
      | .absent => rfl
      | .truncated => rw [hf] at h2; exact absurd h2 (by simp)
      | .content rs =>
        rw [hf] at h2
        simp only
        rw [List.isPrefixOf_iff_prefix] at h2 ⊢
        exact h2.trans (List.prefix_append _ _)
    | .beginSave =>
      intro hs
      simp only [ckptStep] at hs
      exact absurd hs (by simp)
    | .endSave =>
      intro _
      simp only [ckptStep, completeOutsideWrite]
      rw [List.isPrefixOf_iff_prefix]

/-- C8 (amended): each completed `save_results` call rewrites the artifact
wholesale with the entire current `results` list, the record counts of
successive completed writes are non-decreasing, and whenever no write is
in progress the artifact is absent or a complete snapshot (a prefix of the
current results).  The write itself, however, is an in-place
truncate-then-write (mode `"w"`), not an atomic replacement, so an
instant inside a write can observe a torn artifact
(`checkpoint_torn_write_counterexample`). -/
theorem checkpoint_snapshots_monotone (evs : List CkptEvent) :
    List.Chain' (fun x y => x ≤ y)
      ((snapshots initRun evs).map List.length) ∧
    ((runCkpt initRun evs).saving = false →
      completeOutsideWrite (runCkpt initRun evs) = true) ∧
    (runCkpt initRun (evs ++ [CkptEvent.endSave])).file =
      .content (runCkpt initRun (evs ++ [CkptEvent.endSave])).results := by
  refine ⟨?_, ?_, ?_⟩
  · have h := snapshots_lengths_chain evs initRun
    match hs : (snapshots initRun evs).map List.length with
    | [] => simp
    | x :: xs =>
      rw [hs] at h
      rw [List.chain'_cons] at h
      exact h.2
  · exact completeOutsideWrite_invariant evs initRun (fun _ => rfl)
  · rw [runCkpt, List.foldl_append]
    rfl

/-- Witness for the amended C8 on a short trace with two saves. -/
theorem checkpoint_snapshots_monotone_witness :
    List.Chain' (fun x y => x ≤ y)
      ((snapshots initRun
        [.append [[("case", "1")]], .beginSave, .endSave,
          .append [[("case", "2")]], .beginSave, .endSave]).map List.length) ∧
    ((runCkpt initRun
        [.append [[("case", "1")]], .beginSave, .endSave,
          .append [[("case", "2")]], .beginSave, .endSave]).saving = false →
      completeOutsideWrite (runCkpt initRun
        [.append [[("case", "1")]], .beginSave, .endSave,
          .append [[("case", "2")]], .beginSave, .endSave]) = true) ∧
    (runCkpt initRun
      ([.append [[("case", "1")]], .beginSave, .endSave,
        .append [[("case", "2")]], .beginSave, .endSave] ++
        [CkptEvent.endSave])).file =
      .content (runCkpt initRun
        ([.append [[("case", "1")]], .beginSave, .endSave,
          .append [[("case", "2")]], .beginSave, .endSave] ++
          [CkptEvent.endSave])).results :=
  checkpoint_snapshots_monotone
    [.append [[("case", "1")]], .beginSave, .endSave,
      .append [[("case", "2")]], .beginSave, .endSave]
